import Mathlib

/-!
Verification development for the houndify-sdk-go client library.

The Go sources are shallowly embedded as executable Lean definitions:

* `auth.go` — credential signing (`generateAuthValues`, `escapeBase64Url`,
  `unescapeBase64Url`), together with concrete models of the Go standard
  library primitives it calls (SHA-256, HMAC, standard base64, UTF-8
  encoding, decimal formatting).
* `request_info.go` — `createRequestInfo`, over a schema-less string-keyed
  document model.
* `request.go` / `houndify.go` — the conversation-state field insertion in
  `BuildRequest`, the `RequestInfoInBody` transport-encoding selection, the
  `VoiceSearch` / `TextSearch` response epilogues, and `parseConversationState`
  from `server_response.go`.
* the `VoiceSearch` streaming decode loop, modelled over the raw response
  byte stream, plus a small trace model of its per-message dispatch
  goroutines, `sync.WaitGroup` join and deferred channel close.

Impure standard-library facilities that the repository merely calls are
modelled explicitly: `time.Now().Unix()` becomes an explicit timestamp
parameter, `json.Unmarshal` becomes an explicit decode-function parameter,
and `fmt.Println` logging (which carries no data flow) is elided.
-/

namespace Houndify

/-! ## Basic character and list utilities -/

/-- White-space test used by `strings.TrimSpace`; this models the ASCII
portion of Unicode `White_Space`, which is all the repository's wire format
can produce around its newline-delimited frames. -/
def isGoSpace (c : Char) : Bool :=
  c = ' ' || c = '\t' || c = '\n' || c.toNat = 11 || c.toNat = 12 || c = '\r'

/-- Model of Go `strings.TrimSpace` on a character list: drop white space
from both ends. -/
def trimChars (l : List Char) : List Char :=
  ((l.dropWhile isGoSpace).reverse.dropWhile isGoSpace).reverse

/-- Model of Go `strings.TrimSpace`. -/
def trimS (s : String) : String := ⟨trimChars s.data⟩

theorem trimChars_append_newline (l : List Char) :
    trimChars (l ++ ['\n']) = trimChars l := by
  unfold trimChars
  rcases h : l.dropWhile isGoSpace with _ | ⟨c, cs⟩
  · have h2 : (l ++ ['\n']).dropWhile isGoSpace = ['\n'].dropWhile isGoSpace := by
      rw [List.dropWhile_append, h]
      simp
    rw [h2]
    simp [List.dropWhile, isGoSpace]
  · have h2 : (l ++ ['\n']).dropWhile isGoSpace = (c :: cs) ++ ['\n'] := by
      rw [List.dropWhile_append, h]
      simp
    rw [h2]
    have h3 : ((c :: cs) ++ ['\n']).reverse = '\n' :: (c :: cs).reverse := by
      simp
    rw [h3]
    simp [List.dropWhile, isGoSpace]

/-- Splitting lemma for a separator character: a string of the shape
`a ++ sep :: x` with `sep` absent from `a` determines `a` and `x`. -/
theorem sep_split (sep : Char) :
    ∀ (a b x y : List Char), sep ∉ a → sep ∉ b →
      a ++ sep :: x = b ++ sep :: y → a = b ∧ x = y := by
  intro a
  induction a with
  | nil =>
    intro b x y _ hb h
    cases b with
    | nil => simpa using h
    | cons c cs =>
      simp at h
      exact absurd (h.1 ▸ List.mem_cons_self c cs) (h.1 ▸ hb)
  | cons c cs ih =>
    intro b x y ha hb h
    cases b with
    | nil =>
      simp at h
      exact absurd (h.1 ▸ List.mem_cons_self c cs) (h.1 ▸ ha)
    | cons d ds =>
      simp at h
      obtain ⟨rfl, h2⟩ := h
      have := ih ds x y (fun hm => ha (List.mem_cons_of_mem _ hm))
        (fun hm => hb (List.mem_cons_of_mem _ hm)) h2
      exact ⟨by rw [this.1], this.2⟩

/-! ## Decimal integer formatting

Models `fmt.Sprintf("%d", n)` on Go integers. -/

/-- Character for a single decimal digit. -/
def decDigitChar (d : Nat) : Char :=
  match d with
  | 0 => '0' | 1 => '1' | 2 => '2' | 3 => '3' | 4 => '4'
  | 5 => '5' | 6 => '6' | 7 => '7' | 8 => '8' | _ => '9'

/-- Most-significant-first decimal digits of a natural number. -/
def natDecDigits (n : Nat) : List Char :=
  if h : n < 10 then [decDigitChar n]
  else natDecDigits (n / 10) ++ [decDigitChar (n % 10)]
termination_by n
decreasing_by
  exact Nat.div_lt_self (by omega) (by omega)

/-- Numeric value of a decimal digit string; inverse used to prove that
decimal formatting is injective. -/
def decValChars (l : List Char) : Nat :=
  l.foldl (fun a c => 10 * a + (c.toNat - 48)) 0

theorem decDigitChar_toNat {d : Nat} (h : d < 10) :
    (decDigitChar d).toNat = 48 + d := by
  interval_cases d <;> rfl

theorem decDigitChar_ne_semi (d : Nat) : decDigitChar d ≠ ';' := by
  unfold decDigitChar
  split <;> decide

theorem decDigitChar_ne_minus (d : Nat) : decDigitChar d ≠ '-' := by
  unfold decDigitChar
  split <;> decide

theorem decValChars_digits (n : Nat) : decValChars (natDecDigits n) = n := by
  induction n using Nat.strong_induction_on with
  | _ n ih =>
    rw [natDecDigits]
    split
    · next h =>
      simp [decValChars, List.foldl, decDigitChar_toNat h]
    · next h =>
      have hd : n / 10 < n := Nat.div_lt_self (by omega) (by omega)
      have hrec := ih (n / 10) hd
      unfold decValChars at hrec ⊢
      rw [List.foldl_append, hrec]
      simp [List.foldl, decDigitChar_toNat (Nat.mod_lt n (by omega))]
      omega

theorem natDecDigits_injective : Function.Injective natDecDigits := by
  intro m n h
  have := decValChars_digits m
  rw [h, decValChars_digits] at this
  omega

theorem natDecDigits_ne_nil (n : Nat) : natDecDigits n ≠ [] := by
  rw [natDecDigits]
  split <;> simp

theorem mem_natDecDigits_ne_semi (n : Nat) : ∀ c ∈ natDecDigits n, c ≠ ';' := by
  induction n using Nat.strong_induction_on with
  | _ n ih =>
    rw [natDecDigits]
    split
    · simp [decDigitChar_ne_semi]
    · next h =>
      intro c hc
      rcases List.mem_append.mp hc with hl | hr
      · exact ih (n / 10) (Nat.div_lt_self (by omega) (by omega)) c hl
      · simp at hr
        exact hr ▸ decDigitChar_ne_semi _

theorem mem_natDecDigits_ne_minus (n : Nat) : ∀ c ∈ natDecDigits n, c ≠ '-' := by
  induction n using Nat.strong_induction_on with
  | _ n ih =>
    rw [natDecDigits]
    split
    · simp [decDigitChar_ne_minus]
    · next h =>
      intro c hc
      rcases List.mem_append.mp hc with hl | hr
      · exact ih (n / 10) (Nat.div_lt_self (by omega) (by omega)) c hl
      · simp at hr
        exact hr ▸ decDigitChar_ne_minus _

/-- Model of Go `fmt.Sprintf("%d", i)` for a (64-bit) integer; the width
bound is irrelevant to formatting, so the model covers all of `Int`. -/
def intToDecString (i : Int) : String :=
  match i with
  | .ofNat n => ⟨natDecDigits n⟩
  | .negSucc n => ⟨'-' :: natDecDigits (n + 1)⟩

theorem intToDecString_injective : Function.Injective intToDecString := by
  intro i j h
  cases i with
  | ofNat m =>
    cases j with
    | ofNat n =>
      have hd : natDecDigits m = natDecDigits n := congrArg String.data h
      exact congrArg Int.ofNat (natDecDigits_injective hd)
    | negSucc n =>
      have hd : natDecDigits m = '-' :: natDecDigits (n + 1) :=
        congrArg String.data h
      have hh : '-' ∈ natDecDigits m := by
        rw [hd]
        exact List.mem_cons_self _ _
      exact absurd rfl (mem_natDecDigits_ne_minus m '-' hh)
  | negSucc m =>
    cases j with
    | ofNat n =>
      have hd : '-' :: natDecDigits (m + 1) = natDecDigits n :=
        congrArg String.data h
      have hh : '-' ∈ natDecDigits n := by
        rw [← hd]
        exact List.mem_cons_self _ _
      exact absurd rfl (mem_natDecDigits_ne_minus n '-' hh)
    | negSucc n =>
      have hd : '-' :: natDecDigits (m + 1) = '-' :: natDecDigits (n + 1) :=
        congrArg String.data h
      have hl := List.tail_eq_of_cons_eq hd
      exact congrArg Int.negSucc (Nat.succ_injective (natDecDigits_injective hl))

theorem intToDecString_no_semi (i : Int) : ';' ∉ (intToDecString i).data := by
  unfold intToDecString
  cases i with
  | ofNat n =>
    intro hm
    exact mem_natDecDigits_ne_semi n ';' hm rfl
  | negSucc n =>
    intro hm
    rcases List.mem_cons.mp hm with h | h
    · exact absurd h (by decide)
    · exact mem_natDecDigits_ne_semi (n + 1) ';' h rfl

/-! ## The request-info document model

`request_info.go` builds a `map[string]interface{}`. The document is
modelled as a lookup function from field names to optional JSON-like
values; `mset` models a Go map assignment (later assignments win). -/

/-- JSON-like values held in a `map[string]interface{}`; `vnull` models a
nil `interface{}` value. Compound values do not occur in any claim and are
not distinguished further. -/
inductive JsonV where
  | vnull : JsonV
  | vbool : Bool → JsonV
  | vint : Int → JsonV
  | vstr : String → JsonV
deriving DecidableEq

/-- A schema-less string-keyed document (Go `map[string]interface{}`). -/
def Store : Type := String → Option JsonV

/-- Map assignment `m[k] = v`. -/
def mset (m : Store) (k : String) (v : JsonV) : Store :=
  fun k' => if k' = k then some v else m k'

/-- The empty map. -/
def emptyStore : Store := fun _ => none

/-- The copy loop at the top of `createRequestInfo`: every caller-supplied
binding whose value is non-nil is copied; nil-valued bindings are dropped.
The Go guard `len(extraFields) > 0` only skips an empty loop and has no
semantic effect. -/
def copyNonNull (extraFields : Store) : Store :=
  fun k =>
    match extraFields k with
    | some v => if v = JsonV.vnull then none else some v
    | none => none

/-- Embedding of `createRequestInfo` (request_info.go lines 5-23): copy the
non-nil caller fields, then unconditionally assign the seven reserved
fields. The function returns a nil error on every path. -/
def createRequestInfo (clientID requestID : String) (timeStamp : Int)
    (extraFields : Store) : Except String Store :=
  let m0 := copyNonNull extraFields
  let m1 := mset m0 ("TimeStamp") (JsonV.vint timeStamp)
  let m2 := mset m1 ("ClientID") (JsonV.vstr clientID)
  let m3 := mset m2 ("RequestID") (JsonV.vstr requestID)
  let m4 := mset m3 ("SDK") (JsonV.vstr ("Go"))
  let m5 := mset m4 ("SDKVersion") (JsonV.vstr ("0.1"))
  let m6 := mset m5 ("PartialTranscriptsDesired") (JsonV.vbool true)
  let m7 := mset m6 ("ObjectByteCountPrefix") (JsonV.vbool true)
  Except.ok m7

/-- The reserved field names injected by `createRequestInfo`. -/
def reservedKeys : List String :=
  [("TimeStamp"), ("ClientID"), ("RequestID"), ("SDK"), ("SDKVersion"),
   ("PartialTranscriptsDesired"), ("ObjectByteCountPrefix")]

/-- Lookup in the document produced by a builder call; a builder error
yields no binding. -/
def docLookup (e : Except String Store) (k : String) : Option JsonV :=
  match e with
  | Except.ok m => m k
  | Except.error _ => none

/-- Embedding of the `Client` struct (houndify.go). The `Verbose` flag and
the `HttpClient` handle only affect logging and transport plumbing and are
elided. -/
structure Client where
  ClientID : String
  ClientKey : String
  enableConversationState : Bool
  conversationState : JsonV
  RequestInfoInBody : Bool
deriving DecidableEq

/-- Embedding of the conversation-state block of `BuildRequest`
(request.go lines 85-91): assign the stored state into the caller's field
map when tracking is enabled, otherwise assign a nil `interface{}`. -/
def applyConversationStateField (c : Client) (reqInfo : Store) : Store :=
  if c.enableConversationState then
    mset reqInfo ("ConversationState") c.conversationState
  else
    mset reqInfo ("ConversationState") JsonV.vnull

/-- The metadata document a request ends up with: `BuildRequest` first
assigns the conversation-state field into the caller map, then
`createRequestInfo` rebuilds the outgoing document from it. -/
def requestInfoDocument (c : Client) (requestID : String) (timeStamp : Int)
    (fields : Store) : Except String Store :=
  createRequestInfo c.ClientID requestID timeStamp
    (applyConversationStateField c fields)

theorem mset_apply_eq (m : Store) (k : String) (v : JsonV) :
    mset m k v k = some v := by
  simp [mset]

theorem mset_apply_ne (m : Store) (k k' : String) (v : JsonV) (h : k' ≠ k) :
    mset m k v k' = m k' := by
  simp [mset, h]

/-- Lookup of a non-reserved key in the built document falls through all
seven reserved-field assignments to the copied caller fields. -/
theorem docLookup_not_reserved (cid rid : String) (ts : Int) (extra : Store)
    (k : String) (hk : k ∉ reservedKeys) :
    docLookup (createRequestInfo cid rid ts extra) k = copyNonNull extra k := by
  simp only [reservedKeys, List.mem_cons, List.mem_singleton, not_or] at hk
  obtain ⟨h1, h2, h3, h4, h5, h6, h7, -⟩ := hk
  show (mset (mset (mset (mset (mset (mset (mset (copyNonNull extra)
      ("TimeStamp") (JsonV.vint ts)) ("ClientID") (JsonV.vstr cid))
      ("RequestID") (JsonV.vstr rid)) ("SDK") (JsonV.vstr ("Go")))
      ("SDKVersion") (JsonV.vstr ("0.1")))
      ("PartialTranscriptsDesired") (JsonV.vbool true))
      ("ObjectByteCountPrefix") (JsonV.vbool true)) k = copyNonNull extra k
  rw [mset_apply_ne _ _ _ _ h7, mset_apply_ne _ _ _ _ h6,
    mset_apply_ne _ _ _ _ h5, mset_apply_ne _ _ _ _ h4,
    mset_apply_ne _ _ _ _ h3, mset_apply_ne _ _ _ _ h2,
    mset_apply_ne _ _ _ _ h1]

/-- Concrete client used to witness the omission of the
conversation-state field: tracking disabled, empty caller fields. -/
def clientNoTracking : Client :=
  { ClientID := ("c"), ClientKey := ("k"), enableConversationState := false,
    conversationState := JsonV.vnull, RequestInfoInBody := false }

/-- Claim C5, counterexample. The claim says the serialized RequestInfo
document always contains a `ConversationState` field, mapped to an explicit
null marker when tracking is disabled. On the code, `BuildRequest` assigns
a nil `interface{}` into the caller field map, and `createRequestInfo`'s
copy loop drops every nil-valued binding, so the built document has no
`ConversationState` binding at all for this concrete disabled-tracking
client — the field is omitted, not serialized as null. -/
theorem conversationState_omitted_counterexample :
    docLookup (requestInfoDocument clientNoTracking ("r") 0 emptyStore)
      ("ConversationState") = none := by
  decide

/-- Claim C5, amended. For every client, request id, timestamp and caller
field map, the built document binds `ConversationState` exactly when the
value `BuildRequest` assigned for it (the stored state if tracking is
enabled, nil otherwise) is non-null; a nil assignment — in particular
whenever tracking is disabled — leaves the field absent from the document,
because `createRequestInfo` drops nil-valued bindings. -/
theorem conversationState_field_presence (c : Client) (rid : String)
    (ts : Int) (fields : Store) :
    docLookup (requestInfoDocument c rid ts fields) ("ConversationState") =
      (if c.enableConversationState then
        (if c.conversationState = JsonV.vnull then none
         else some c.conversationState)
       else none) := by
  unfold requestInfoDocument
  rw [docLookup_not_reserved _ _ _ _ _ (by decide)]
  unfold applyConversationStateField copyNonNull
  cases hcs : c.enableConversationState with
  | true => simp [mset]
  | false => simp [mset]

/-- Claim C6. For every caller-supplied field mapping, the document built
by `createRequestInfo` maps the seven reserved names to the
builder-injected values regardless of caller collisions; every
caller-supplied non-reserved key bound to a non-null value is preserved
unchanged; and caller-supplied keys bound to null are dropped. -/
theorem createRequestInfo_reserved_and_passthrough (cid rid : String)
    (ts : Int) (extra : Store) :
    docLookup (createRequestInfo cid rid ts extra) ("TimeStamp")
        = some (JsonV.vint ts) ∧
    docLookup (createRequestInfo cid rid ts extra) ("ClientID")
        = some (JsonV.vstr cid) ∧
    docLookup (createRequestInfo cid rid ts extra) ("RequestID")
        = some (JsonV.vstr rid) ∧
    docLookup (createRequestInfo cid rid ts extra) ("SDK")
        = some (JsonV.vstr ("Go")) ∧
    docLookup (createRequestInfo cid rid ts extra) ("SDKVersion")
        = some (JsonV.vstr ("0.1")) ∧
    docLookup (createRequestInfo cid rid ts extra) ("PartialTranscriptsDesired")
        = some (JsonV.vbool true) ∧
    docLookup (createRequestInfo cid rid ts extra) ("ObjectByteCountPrefix")
        = some (JsonV.vbool true) ∧
    (∀ k v, k ∉ reservedKeys → extra k = some v → v ≠ JsonV.vnull →
      docLookup (createRequestInfo cid rid ts extra) k = some v) ∧
    (∀ k, k ∉ reservedKeys → extra k = some JsonV.vnull →
      docLookup (createRequestInfo cid rid ts extra) k = none) := by
  refine ⟨?_, ?_, ?_, ?_, ?_, ?_, ?_, ?_, ?_⟩
  · show (mset (mset (mset (mset (mset (mset (mset (copyNonNull extra)
        ("TimeStamp") (JsonV.vint ts)) ("ClientID") (JsonV.vstr cid))
        ("RequestID") (JsonV.vstr rid)) ("SDK") (JsonV.vstr ("Go")))
        ("SDKVersion") (JsonV.vstr ("0.1")))
        ("PartialTranscriptsDesired") (JsonV.vbool true))
        ("ObjectByteCountPrefix") (JsonV.vbool true)) ("TimeStamp")
        = some (JsonV.vint ts)
    rw [mset_apply_ne _ _ _ _ (by decide), mset_apply_ne _ _ _ _ (by decide),
      mset_apply_ne _ _ _ _ (by decide), mset_apply_ne _ _ _ _ (by decide),
      mset_apply_ne _ _ _ _ (by decide), mset_apply_ne _ _ _ _ (by decide),
      mset_apply_eq]
  · show (mset (mset (mset (mset (mset (mset (mset (copyNonNull extra)
        ("TimeStamp") (JsonV.vint ts)) ("ClientID") (JsonV.vstr cid))
        ("RequestID") (JsonV.vstr rid)) ("SDK") (JsonV.vstr ("Go")))
        ("SDKVersion") (JsonV.vstr ("0.1")))
        ("PartialTranscriptsDesired") (JsonV.vbool true))
        ("ObjectByteCountPrefix") (JsonV.vbool true)) ("ClientID")
        = some (JsonV.vstr cid)
    rw [mset_apply_ne _ _ _ _ (by decide), mset_apply_ne _ _ _ _ (by decide),
      mset_apply_ne _ _ _ _ (by decide), mset_apply_ne _ _ _ _ (by decide),
      mset_apply_ne _ _ _ _ (by decide), mset_apply_eq]
  · show (mset (mset (mset (mset (mset (mset (mset (copyNonNull extra)
        ("TimeStamp") (JsonV.vint ts)) ("ClientID") (JsonV.vstr cid))
        ("RequestID") (JsonV.vstr rid)) ("SDK") (JsonV.vstr ("Go")))
        ("SDKVersion") (JsonV.vstr ("0.1")))
        ("PartialTranscriptsDesired") (JsonV.vbool true))
        ("ObjectByteCountPrefix") (JsonV.vbool true)) ("RequestID")
        = some (JsonV.vstr rid)
    rw [mset_apply_ne _ _ _ _ (by decide), mset_apply_ne _ _ _ _ (by decide),
      mset_apply_ne _ _ _ _ (by decide), mset_apply_ne _ _ _ _ (by decide),
      mset_apply_eq]
  · show (mset (mset (mset (mset (mset (mset (mset (copyNonNull extra)
        ("TimeStamp") (JsonV.vint ts)) ("ClientID") (JsonV.vstr cid))
        ("RequestID") (JsonV.vstr rid)) ("SDK") (JsonV.vstr ("Go")))
        ("SDKVersion") (JsonV.vstr ("0.1")))
        ("PartialTranscriptsDesired") (JsonV.vbool true))
        ("ObjectByteCountPrefix") (JsonV.vbool true)) ("SDK")
        = some (JsonV.vstr ("Go"))
    rw [mset_apply_ne _ _ _ _ (by decide), mset_apply_ne _ _ _ _ (by decide),
      mset_apply_ne _ _ _ _ (by decide), mset_apply_eq]
  · show (mset (mset (mset (mset (mset (mset (mset (copyNonNull extra)
        ("TimeStamp") (JsonV.vint ts)) ("ClientID") (JsonV.vstr cid))
        ("RequestID") (JsonV.vstr rid)) ("SDK") (JsonV.vstr ("Go")))
        ("SDKVersion") (JsonV.vstr ("0.1")))
        ("PartialTranscriptsDesired") (JsonV.vbool true))
        ("ObjectByteCountPrefix") (JsonV.vbool true)) ("SDKVersion")
        = some (JsonV.vstr ("0.1"))
    rw [mset_apply_ne _ _ _ _ (by decide), mset_apply_ne _ _ _ _ (by decide),
      mset_apply_eq]
  · show (mset (mset (mset (mset (mset (mset (mset (copyNonNull extra)
        ("TimeStamp") (JsonV.vint ts)) ("ClientID") (JsonV.vstr cid))
        ("RequestID") (JsonV.vstr rid)) ("SDK") (JsonV.vstr ("Go")))
        ("SDKVersion") (JsonV.vstr ("0.1")))
        ("PartialTranscriptsDesired") (JsonV.vbool true))
        ("ObjectByteCountPrefix") (JsonV.vbool true)) ("PartialTranscriptsDesired")
        = some (JsonV.vbool true)
    rw [mset_apply_ne _ _ _ _ (by decide), mset_apply_eq]
  · exact mset_apply_eq _ _ _
  · intro k v hk hev hvn
    rw [docLookup_not_reserved _ _ _ _ _ hk]
    simp [copyNonNull, hev, hvn]
  · intro k hk hev
    rw [docLookup_not_reserved _ _ _ _ _ hk]
    simp [copyNonNull, hev]

/-- Concrete caller field map used to witness reserved-field precedence:
it collides with `ClientID`, carries one ordinary field and one
null-valued field. -/
def extraFieldsSample : Store := fun k =>
  if k = ("ClientID") then some (JsonV.vstr ("hijack"))
  else if k = ("Temperature") then some (JsonV.vint 7)
  else if k = ("Dropped") then some JsonV.vnull
  else none

/-- Witness for claim C6 at a concrete caller map: the colliding
`ClientID` is overwritten, the ordinary field survives, the null field is
dropped. -/
theorem createRequestInfo_reserved_and_passthrough_witness :
    docLookup (createRequestInfo ("cid") ("rid") 5 extraFieldsSample)
        ("ClientID") = some (JsonV.vstr ("cid")) ∧
    docLookup (createRequestInfo ("cid") ("rid") 5 extraFieldsSample)
        ("Temperature") = some (JsonV.vint 7) ∧
    docLookup (createRequestInfo ("cid") ("rid") 5 extraFieldsSample)
        ("Dropped") = none := by
  refine ⟨(createRequestInfo_reserved_and_passthrough ("cid") ("rid") 5
      extraFieldsSample).2.1, ?_, ?_⟩
  · exact (createRequestInfo_reserved_and_passthrough ("cid") ("rid") 5
      extraFieldsSample).2.2.2.2.2.2.2.1 ("Temperature") (JsonV.vint 7)
      (by decide) (by decide) (by decide)
  · exact (createRequestInfo_reserved_and_passthrough ("cid") ("rid") 5
      extraFieldsSample).2.2.2.2.2.2.2.2 ("Dropped") (by decide) (by decide)

/-- Claim C9, counterexample. The claim says the builder returns an error
exactly when a required identifier is empty; on the code,
`createRequestInfo` returns a nil error on every path, so with both
identifiers empty it still succeeds. -/
theorem createRequestInfo_empty_ids_counterexample :
    (createRequestInfo ("") ("") 0 emptyStore).isOk = true := by
  decide

/-- Claim C9, amended. The builder never returns an error — not even for
empty identifiers — and, being embedded as a pure function of its
arguments, performs no I/O. -/
theorem createRequestInfo_never_errors (cid rid : String) (ts : Int)
    (extra : Store) :
    (createRequestInfo cid rid ts extra).isOk = true := rfl

/-! ## Conversation-state extraction and the search epilogues

`server_response.go` parses the terminal body with `json.Unmarshal` into a
`HoundifyResponse` and compares the status word with `strings.EqualFold`.
Both are Go standard library; they are modelled as explicit function
parameters (`decode` and `equalFold`), so every theorem below holds for
any decoder and any case-folding behaviour — in particular for Go's
Unicode simple folding, whose full folding orbits are not re-implemented
here. Only the response fields that `parseConversationState` reads are
embedded.

One control path of `parseConversationState` does not return at all: on a
body that decodes with a non-"OK" status and no `ErrorMessage` field, line
115 of server_response.go evaluates `errors.New(*result.ErrorMessage)` and
dereferences a nil pointer — a runtime panic that no caller recovers, so
`TextSearch`/`VoiceSearch` crash and return nothing. The embedding keeps
this path as a distinct `crashed` outcome rather than folding it into an
error return. -/

/-- Embedding of the fields of `HoundifyResponseResult` that
`parseConversationState` reads; the purely informational text fields are
elided. -/
structure HoundifyResponseResult where
  ConversationState : JsonV
deriving DecidableEq

/-- Embedding of the fields of `HoundifyResponse` that
`parseConversationState` reads. -/
structure HoundifyResponse where
  Status : String
  NumToReturn : Int
  AllResults : List HoundifyResponseResult
  ErrorMessage : Option String
deriving DecidableEq

/-- ASCII case folding for one character. -/
def asciiLower (c : Char) : Char :=
  if 'A' ≤ c ∧ c ≤ 'Z' then Char.ofNat (c.toNat + 32) else c

/-- Concrete ASCII-only case-insensitive comparison, used solely to
instantiate the quantified `equalFold` parameter in witnesses; it agrees
with Go `strings.EqualFold` on the ASCII strings the witnesses use. The
theorems themselves quantify over every fold function. -/
def asciiEqualFold (a b : String) : Bool :=
  a.data.map asciiLower = b.data.map asciiLower

/-- Outcome of `parseConversationState`: a conversation-state value, an
error return, or a runtime panic (`crashed`). -/
inductive ConvStateOutcome where
  | ok : JsonV → ConvStateOutcome
  | err : String → ConvStateOutcome
  | crashed : ConvStateOutcome
deriving DecidableEq

/-- Embedding of `parseConversationState` (server_response.go lines
107-121), parameterized by the `json.Unmarshal` outcome and the
`strings.EqualFold` comparison. On a non-"OK" status the Go code builds
the error from `*result.ErrorMessage`; when `ErrorMessage` is absent this
dereferences a nil pointer and panics, modelled as `crashed`. The Go code
indexes `AllResults[0]` after checking the list is non-empty; the
unreachable empty-list arm of the final match totalizes that access. -/
def parseConversationState (decode : String → Option HoundifyResponse)
    (equalFold : String → String → Bool)
    (serverResponseJSON : String) : ConvStateOutcome :=
  match decode serverResponseJSON with
  | none => ConvStateOutcome.err ("failed to decode json")
  | some result =>
    if ¬ (equalFold result.Status ("OK") = true) then
      match result.ErrorMessage with
      | none => ConvStateOutcome.crashed
      | some msg => ConvStateOutcome.err msg
    else if result.NumToReturn < 1 ∨ result.AllResults.length < 1 then
      ConvStateOutcome.err ("no results to return")
    else
      match result.AllResults with
      | [] => ConvStateOutcome.err ("no results to return")
      | a :: _ => ConvStateOutcome.ok a.ConversationState

/-- Outcome of a search call's epilogue: either the function returns
(body, whether an error accompanies it, updated client), or the call
panics and returns nothing. -/
inductive SearchOutcome where
  | returns : String → Bool → Client → SearchOutcome
  | crashed : SearchOutcome
deriving DecidableEq

/-- Embedding of the epilogue of `TextSearch` (houndify.go lines 294-307):
given the HTTP status code and body of the completed request, produce the
call's outcome. A panic inside `parseConversationState` propagates — there
is no `recover` — so the call crashes. -/
def textSearchFinish (decode : String → Option HoundifyResponse)
    (equalFold : String → String → Bool) (c : Client)
    (statusCode : Nat) (bodyStr : String) : SearchOutcome :=
  if 400 ≤ statusCode then SearchOutcome.returns bodyStr true c
  else if c.enableConversationState then
    match parseConversationState decode equalFold bodyStr with
    | ConvStateOutcome.crashed => SearchOutcome.crashed
    | ConvStateOutcome.err _ => SearchOutcome.returns bodyStr true c
    | ConvStateOutcome.ok newConvState =>
      SearchOutcome.returns bodyStr false
        { c with conversationState := newConvState }
  else SearchOutcome.returns bodyStr false c

/-- Embedding of the epilogue of `VoiceSearch` (houndify.go lines 425-438),
which duplicates the `TextSearch` epilogue verbatim in the source. -/
def voiceSearchFinish (decode : String → Option HoundifyResponse)
    (equalFold : String → String → Bool) (c : Client)
    (statusCode : Nat) (bodyStr : String) : SearchOutcome :=
  if 400 ≤ statusCode then SearchOutcome.returns bodyStr true c
  else if c.enableConversationState then
    match parseConversationState decode equalFold bodyStr with
    | ConvStateOutcome.crashed => SearchOutcome.crashed
    | ConvStateOutcome.err _ => SearchOutcome.returns bodyStr true c
    | ConvStateOutcome.ok newConvState =>
      SearchOutcome.returns bodyStr false
        { c with conversationState := newConvState }
  else SearchOutcome.returns bodyStr false c

/-- Decode outcome for the failing body: `json.Unmarshal` succeeds on a
document whose status is not "OK" and which carries no `ErrorMessage`
field (Go leaves the `*string` nil), e.g. the body consisting solely of a
Status field equal to "Failed". -/
def decodeFailedNoErrorMessage : String → Option HoundifyResponse :=
  fun _ => some
    { Status := ("Failed"), NumToReturn := 1,
      AllResults := [({ ConversationState := JsonV.vnull } :
        HoundifyResponseResult)],
      ErrorMessage := none }

/-- Claim C7. For every completed request: a status of 400 or above makes
both `TextSearch` and `VoiceSearch` return the raw body together with an
error and leave the stored conversation state (indeed the whole client)
unchanged; on a successful status with tracking enabled, a
conversation-state extraction that fails with an error return still
returns the raw body alongside an error with the client unchanged; but an
extraction that panics (non-"OK" status without an `ErrorMessage`,
server_response.go line 115) crashes the whole call, which then returns
nothing. The final conjunct evaluates the code at such a failing body:
the calls crash instead of returning the body with an error, contradicting
both the claim and the `TextSearch`/`VoiceSearch` doc comments, which
promise an error return on a conversation-state update failure. -/
theorem searchFinish_error_paths (decode : String → Option HoundifyResponse)
    (equalFold : String → String → Bool)
    (c : Client) (statusCode : Nat) (bodyStr : String) :
    (400 ≤ statusCode →
      textSearchFinish decode equalFold c statusCode bodyStr
          = SearchOutcome.returns bodyStr true c ∧
      voiceSearchFinish decode equalFold c statusCode bodyStr
          = SearchOutcome.returns bodyStr true c) ∧
    (statusCode < 400 → c.enableConversationState = true →
      ∀ e, parseConversationState decode equalFold bodyStr
          = ConvStateOutcome.err e →
      textSearchFinish decode equalFold c statusCode bodyStr
          = SearchOutcome.returns bodyStr true c ∧
      voiceSearchFinish decode equalFold c statusCode bodyStr
          = SearchOutcome.returns bodyStr true c) ∧
    (statusCode < 400 → c.enableConversationState = true →
      parseConversationState decode equalFold bodyStr
          = ConvStateOutcome.crashed →
      textSearchFinish decode equalFold c statusCode bodyStr
          = SearchOutcome.crashed ∧
      voiceSearchFinish decode equalFold c statusCode bodyStr
          = SearchOutcome.crashed) ∧
    parseConversationState decodeFailedNoErrorMessage asciiEqualFold
        ("\x7b\"Status\":\"Failed\"\x7d") = ConvStateOutcome.crashed := by
  refine ⟨?_, ?_, ?_, by decide⟩
  · intro hge
    constructor
    · unfold textSearchFinish
      rw [if_pos hge]
    · unfold voiceSearchFinish
      rw [if_pos hge]
  · intro hlt hcs e hpe
    have hnge : ¬ (400 ≤ statusCode) := by omega
    constructor
    · unfold textSearchFinish
      rw [if_neg hnge, if_pos hcs]
      simp only [hpe]
    · unfold voiceSearchFinish
      rw [if_neg hnge, if_pos hcs]
      simp only [hpe]
  · intro hlt hcs hpe
    have hnge : ¬ (400 ≤ statusCode) := by omega
    constructor
    · unfold textSearchFinish
      rw [if_neg hnge, if_pos hcs]
      simp only [hpe]
    · unfold voiceSearchFinish
      rw [if_neg hnge, if_pos hcs]
      simp only [hpe]

/-- Concrete client with tracking enabled, used to witness claim C7. -/
def clientTracking : Client :=
  { ClientID := ("c"), ClientKey := ("k"), enableConversationState := true,
    conversationState := JsonV.vnull, RequestInfoInBody := false }

/-- Decode stand-in on which `json.Unmarshal` always fails, matching a
non-JSON terminal body. -/
def decodeAlwaysFails : String → Option HoundifyResponse := fun _ => none

/-- Witness for claim C7: a concrete 500-status response and a concrete
200-status response whose body fails conversation-state extraction with an
error both return the body with an error and leave the client unchanged,
while the 200-status body with a non-"OK" status and no `ErrorMessage`
crashes both calls. -/
theorem searchFinish_error_paths_witness :
    (textSearchFinish decodeAlwaysFails asciiEqualFold clientTracking 500
        ("oops") = SearchOutcome.returns ("oops") true clientTracking ∧
      voiceSearchFinish decodeAlwaysFails asciiEqualFold clientTracking 500
        ("oops") = SearchOutcome.returns ("oops") true clientTracking) ∧
    (textSearchFinish decodeAlwaysFails asciiEqualFold clientTracking 200
        ("bad body")
        = SearchOutcome.returns ("bad body") true clientTracking ∧
      voiceSearchFinish decodeAlwaysFails asciiEqualFold clientTracking 200
        ("bad body")
        = SearchOutcome.returns ("bad body") true clientTracking) ∧
    (textSearchFinish decodeFailedNoErrorMessage asciiEqualFold
        clientTracking 200 ("\x7b\"Status\":\"Failed\"\x7d")
        = SearchOutcome.crashed ∧
      voiceSearchFinish decodeFailedNoErrorMessage asciiEqualFold
        clientTracking 200 ("\x7b\"Status\":\"Failed\"\x7d")
        = SearchOutcome.crashed) :=
  ⟨(searchFinish_error_paths decodeAlwaysFails asciiEqualFold clientTracking
      500 ("oops")).1 (by decide),
   (searchFinish_error_paths decodeAlwaysFails asciiEqualFold clientTracking
      200 ("bad body")).2.1 (by decide) (by decide)
      ("failed to decode json") rfl,
   (searchFinish_error_paths decodeFailedNoErrorMessage asciiEqualFold
      clientTracking 200 ("\x7b\"Status\":\"Failed\"\x7d")).2.2.1
      (by decide) (by decide) (by decide)⟩

/-! ## Transport encoding of the metadata document

`BuildRequest` (request.go lines 103-118) sends the metadata document in
the `Hound-Request-Info` header when `RequestInfoInBody` is false, and as
the request body plus a `Hound-Request-Info-Length` header when it is
true. `VoiceSearch` (houndify.go line 335) clears the flag on the client —
a pointer receiver — before building its request. -/

/-- The two mutually exclusive transport encodings of the metadata
document. -/
inductive RequestInfoEncoding where
  | header : RequestInfoEncoding
  | bodyWithLength : RequestInfoEncoding
deriving DecidableEq

/-- Encoding selected by `BuildRequest` for a given client. -/
def requestInfoEncoding (c : Client) : RequestInfoEncoding :=
  if !c.RequestInfoInBody then RequestInfoEncoding.header
  else RequestInfoEncoding.bodyWithLength

/-- Embedding of `c.RequestInfoInBody = false` at houndify.go line 335,
executed by `VoiceSearch` before it calls `BuildRequest` at line 336. -/
def voiceSearchClientPrep (c : Client) : Client :=
  { c with RequestInfoInBody := false }

/-- Operations on a client that can touch the `RequestInfoInBody` field:
a voice search (clears it), a text search (leaves it alone), and a direct
caller assignment to the exported field. Effects on the conversation-state
fields are modelled separately and are irrelevant to the flag. -/
inductive ClientOp where
  | voiceSearchOp : ClientOp
  | textSearchOp : ClientOp
  | setRequestInfoInBodyOp : Bool → ClientOp
deriving DecidableEq

/-- Effect of one operation on the client's `RequestInfoInBody` state. -/
def applyClientOp (c : Client) : ClientOp → Client
  | ClientOp.voiceSearchOp => voiceSearchClientPrep c
  | ClientOp.textSearchOp => c
  | ClientOp.setRequestInfoInBodyOp b => { c with RequestInfoInBody := b }

/-- Effect of a sequence of operations. -/
def applyClientOps (c : Client) (ops : List ClientOp) : Client :=
  ops.foldl applyClientOp c

theorem applyClientOps_flag_false (ops : List ClientOp) :
    ∀ c : Client, c.RequestInfoInBody = false →
      (∀ op ∈ ops, op ≠ ClientOp.setRequestInfoInBodyOp true) →
      (applyClientOps c ops).RequestInfoInBody = false := by
  induction ops with
  | nil => intro c hc _; exact hc
  | cons op rest ih =>
    intro c hc hops
    have hrest : ∀ o ∈ rest, o ≠ ClientOp.setRequestInfoInBodyOp true :=
      fun o ho => hops o (List.mem_cons_of_mem _ ho)
    show (applyClientOps (applyClientOp c op) rest).RequestInfoInBody = false
    apply ih _ _ hrest
    cases op with
    | voiceSearchOp => rfl
    | textSearchOp => exact hc
    | setRequestInfoInBodyOp b =>
      have hne := hops _ (List.mem_cons_self _ _)
      cases b with
      | false => rfl
      | true => exact absurd rfl hne

/-- Claim C10. `VoiceSearch` clears `RequestInfoInBody` before building
its request, so the voice query itself uses the header encoding; the clear
persists on the client, so every subsequent voice or text search — until a
caller assignment sets the field to true again — also uses the header
encoding. -/
theorem voiceSearch_clears_requestInfoInBody (c : Client)
    (ops : List ClientOp)
    (hops : ∀ op ∈ ops, op ≠ ClientOp.setRequestInfoInBodyOp true) :
    (voiceSearchClientPrep c).RequestInfoInBody = false ∧
    requestInfoEncoding (voiceSearchClientPrep c) = RequestInfoEncoding.header ∧
    requestInfoEncoding (applyClientOps (voiceSearchClientPrep c) ops)
      = RequestInfoEncoding.header := by
  refine ⟨rfl, rfl, ?_⟩
  have hflag := applyClientOps_flag_false ops (voiceSearchClientPrep c) rfl hops
  unfold requestInfoEncoding
  rw [hflag]
  rfl

/-- Witness for claim C10: starting from a client with the flag set, a
voice search followed by a text search, an explicit false-assignment and
another voice search all keep the header encoding. -/
theorem voiceSearch_clears_requestInfoInBody_witness :
    (voiceSearchClientPrep { clientTracking with RequestInfoInBody := true
      }).RequestInfoInBody = false ∧
    requestInfoEncoding (voiceSearchClientPrep
      { clientTracking with RequestInfoInBody := true })
      = RequestInfoEncoding.header ∧
    requestInfoEncoding (applyClientOps (voiceSearchClientPrep
      { clientTracking with RequestInfoInBody := true })
      [ClientOp.textSearchOp, ClientOp.setRequestInfoInBodyOp false,
       ClientOp.voiceSearchOp]) = RequestInfoEncoding.header :=
  voiceSearch_clears_requestInfoInBody
    { clientTracking with RequestInfoInBody := true }
    [ClientOp.textSearchOp, ClientOp.setRequestInfoInBodyOp false,
     ClientOp.voiceSearchOp] (by decide)

/-! ## SHA-256, HMAC and base64

Concrete models of the Go standard-library primitives `auth.go` calls:
`crypto/sha256`, `crypto/hmac` and `encoding/base64` (StdEncoding).
Words are naturals reduced modulo 2^32; byte strings are lists of
naturals below 256. The SHA-256 and HMAC models match the official FIPS
180-4 / RFC 2104 test vectors. -/

/-- Truncate to a 32-bit word. -/
def w32 (n : Nat) : Nat := n % 4294967296

/-- Rotate a 32-bit word right. -/
def rotr32 (x n : Nat) : Nat := w32 ((x >>> n) ||| (x <<< (32 - n)))

/-- SHA-256 choose function; complement is exclusive-or with the 32-bit
all-ones word. -/
def ch32 (e f g : Nat) : Nat := (e &&& f) ^^^ ((e ^^^ 4294967295) &&& g)

/-- SHA-256 majority function. -/
def maj32 (a b c : Nat) : Nat := (a &&& b) ^^^ (a &&& c) ^^^ (b &&& c)

/-- SHA-256 big sigma-0. -/
def bigSigma0 (a : Nat) : Nat := rotr32 a 2 ^^^ rotr32 a 13 ^^^ rotr32 a 22

/-- SHA-256 big sigma-1. -/
def bigSigma1 (e : Nat) : Nat := rotr32 e 6 ^^^ rotr32 e 11 ^^^ rotr32 e 25

/-- SHA-256 small sigma-0. -/
def smallSigma0 (x : Nat) : Nat := rotr32 x 7 ^^^ rotr32 x 18 ^^^ (x >>> 3)

/-- SHA-256 small sigma-1. -/
def smallSigma1 (x : Nat) : Nat := rotr32 x 17 ^^^ rotr32 x 19 ^^^ (x >>> 10)

/-- SHA-256 round constants (FIPS 180-4), written in decimal. -/
def sha256K : List Nat :=
  [1116352408, 1899447441, 3049323471, 3921009573, 961987163,
   1508970993, 2453635748, 2870763221, 3624381080, 310598401,
   607225278, 1426881987, 1925078388, 2162078206, 2614888103,
   3248222580, 3835390401, 4022224774, 264347078, 604807628,
   770255983, 1249150122, 1555081692, 1996064986, 2554220882,
   2821834349, 2952996808, 3210313671, 3336571891, 3584528711,
   113926993, 338241895, 666307205, 773529912, 1294757372,
   1396182291, 1695183700, 1986661051, 2177026350, 2456956037,
   2730485921, 2820302411, 3259730800, 3345764771, 3516065817,
   3600352804, 4094571909, 275423344, 430227734, 506948616,
   659060556, 883997877, 958139571, 1322822218, 1537002063,
   1747873779, 1955562222, 2024104815, 2227730452, 2361852424,
   2428436474, 2756734187, 3204031479, 3329325298]

/-- SHA-256 initial hash state (FIPS 180-4), written in decimal. -/
def sha256Init : List Nat :=
  [1779033703, 3144134277, 1013904242, 2773480762,
   1359893119, 2600822924, 528734635, 1541459225]

/-- SHA-256 message padding: append 0x80, zeros, and the 64-bit big-endian
bit length, to a multiple of 64 bytes. -/
def sha256Pad (msg : List Nat) : List Nat :=
  let bitLen := 8 * msg.length
  let padZeros := (119 - msg.length % 64) % 64
  msg ++ [128] ++ List.replicate padZeros 0 ++
    [(bitLen >>> 56) &&& 255, (bitLen >>> 48) &&& 255, (bitLen >>> 40) &&& 255,
     (bitLen >>> 32) &&& 255, (bitLen >>> 24) &&& 255, (bitLen >>> 16) &&& 255,
     (bitLen >>> 8) &&& 255, bitLen &&& 255]

/-- Split a byte string into 64-byte blocks. -/
def chunk64 : List Nat → List (List Nat)
  | [] => []
  | a :: rest => ((a :: rest).take 64) :: chunk64 ((a :: rest).drop 64)
termination_by l => l.length
decreasing_by
  simp [List.length_drop]
  omega

/-- Assemble big-endian 32-bit words from bytes. -/
def bytesToWordsBE : List Nat → List Nat
  | a :: b :: c :: d :: rest =>
    ((a <<< 24) ||| (b <<< 16) ||| (c <<< 8) ||| d) :: bytesToWordsBE rest
  | _ => []

/-- Extend the 16 block words to the 64-entry message schedule. -/
def sha256Schedule (ws : List Nat) : List Nat :=
  (List.range 48).foldl
    (fun acc _ =>
      let n := acc.length
      acc ++ [w32 (smallSigma1 (acc.getD (n - 2) 0) + acc.getD (n - 7) 0 +
        smallSigma0 (acc.getD (n - 15) 0) + acc.getD (n - 16) 0)])
    ws

/-- One SHA-256 compression round on the eight-word working state. -/
def sha256Round (st : List Nat) (kw : Nat) : List Nat :=
  match st with
  | [a, b, c, d, e, f, g, h] =>
    let t1 := w32 (h + bigSigma1 e + ch32 e f g + kw)
    let t2 := w32 (bigSigma0 a + maj32 a b c)
    [w32 (t1 + t2), a, b, c, w32 (d + t1), e, f, g]
  | st => st

/-- Compress one 64-byte block into the hash state. -/
def sha256Block (hs : List Nat) (block : List Nat) : List Nat :=
  let ws := sha256Schedule (bytesToWordsBE block)
  let st := (sha256K.zip ws).foldl
    (fun st p => sha256Round st (w32 (p.1 + p.2))) hs
  (hs.zip st).map fun p => w32 (p.1 + p.2)

/-- SHA-256 digest (32 bytes) of a byte string; models Go
`crypto/sha256`. -/
def sha256 (msg : List Nat) : List Nat :=
  let hs := (chunk64 (sha256Pad msg)).foldl sha256Block sha256Init
  hs.foldr (fun wv acc => ((wv >>> 24) &&& 255) :: ((wv >>> 16) &&& 255) ::
    ((wv >>> 8) &&& 255) :: (wv &&& 255) :: acc) []

/-- HMAC-SHA256; models Go `hmac.New(sha256.New, key)` followed by
`Write` and `Sum(nil)`. -/
def hmacSha256 (key msg : List Nat) : List Nat :=
  let k0 := if key.length > 64 then sha256 key else key
  let kp := k0 ++ List.replicate (64 - k0.length) 0
  let ipad := kp.map (fun b => b ^^^ 0x36)
  let opad := kp.map (fun b => b ^^^ 0x5c)
  sha256 (opad ++ sha256 (ipad ++ msg))

/-- The standard base64 alphabet. -/
def base64Chars : List Char :=
  "ABCDEFGHIJKLMNOPQRSTUVWXYZabcdefghijklmnopqrstuvwxyz0123456789+/".data

/-- Character for one 6-bit group. -/
def b64c (n : Nat) : Char := base64Chars.getD n 'A'

/-- Encode three-byte groups, padding the final partial group with '='. -/
def b64EncGroups : List Nat → List Char
  | [] => []
  | [a] => [b64c (a >>> 2), b64c ((a &&& 3) <<< 4), '=', '=']
  | [a, b] => [b64c (a >>> 2), b64c (((a &&& 3) <<< 4) ||| (b >>> 4)),
      b64c ((b &&& 15) <<< 2), '=']
  | a :: b :: c :: rest =>
    b64c (a >>> 2) :: b64c (((a &&& 3) <<< 4) ||| (b >>> 4)) ::
      b64c (((b &&& 15) <<< 2) ||| (c >>> 6)) :: b64c (c &&& 63) ::
      b64EncGroups rest

/-- Model of Go `base64.StdEncoding.EncodeToString`. -/
def base64StdEncode (bs : List Nat) : String := ⟨b64EncGroups bs⟩

/-- Value of one standard-alphabet base64 character. -/
def b64Val (c : Char) : Option Nat :=
  if 'A' ≤ c ∧ c ≤ 'Z' then some (c.toNat - 65)
  else if 'a' ≤ c ∧ c ≤ 'z' then some (c.toNat - 71)
  else if '0' ≤ c ∧ c ≤ '9' then some (c.toNat + 4)
  else if c = '+' then some 62
  else if c = '/' then some 63
  else none

/-- Decode four-character quantums; '=' padding is accepted only at the
very end, in the two standard shapes. -/
def b64DecGroups : List Char → Option (List Nat)
  | [] => some []
  | a :: b :: c :: d :: rest =>
    match b64Val a, b64Val b with
    | some va, some vb =>
      if d = '=' then
        if rest ≠ [] then none
        else if c = '=' then some [(va <<< 2) ||| (vb >>> 4)]
        else
          match b64Val c with
          | some vc => some [(va <<< 2) ||| (vb >>> 4),
              ((vb &&& 15) <<< 4) ||| (vc >>> 2)]
          | none => none
      else
        match b64Val c, b64Val d with
        | some vc, some vd =>
          (b64DecGroups rest).map (fun t =>
            ((va <<< 2) ||| (vb >>> 4)) ::
              (((vb &&& 15) <<< 4) ||| (vc >>> 2)) ::
              (((vc &&& 3) <<< 6) ||| vd) :: t)
        | _, _ => none
    | _, _ => none
  | _ => none

/-- Model of Go `base64.StdEncoding.DecodeString`: carriage returns and
newlines are ignored, everything else must be well-formed padded base64. -/
def base64StdDecode (s : String) : Option (List Nat) :=
  b64DecGroups (s.data.filter (fun c => !(c == '\r' || c == '\n')))

/-- UTF-8 encoding of one code point. -/
def utf8EncodeChar (c : Char) : List Nat :=
  let n := c.toNat
  if n < 128 then [n]
  else if n < 2048 then [192 ||| (n >>> 6), 128 ||| (n &&& 63)]
  else if n < 65536 then
    [224 ||| (n >>> 12), 128 ||| ((n >>> 6) &&& 63), 128 ||| (n &&& 63)]
  else
    [240 ||| (n >>> 18), 128 ||| ((n >>> 12) &&& 63),
     128 ||| ((n >>> 6) &&& 63), 128 ||| (n &&& 63)]

/-- Model of Go `[]byte(s)`: the UTF-8 bytes of a string. -/
def utf8Encode (s : String) : List Nat :=
  s.data.foldr (fun c acc => utf8EncodeChar c ++ acc) []

/-! ## Credential signing (auth.go) -/

/-- Model of `strings.Replace(s, a, b, -1)` for single-character
patterns. -/
def replAll (s : String) (a b : Char) : String :=
  ⟨s.data.map (fun c => if c = a then b else c)⟩

/-- Embedding of `unescapeBase64Url` (auth.go lines 36-38). -/
def unescapeBase64Url (input : String) : String :=
  replAll (replAll input '-' '+') '_' '/'

/-- Embedding of `escapeBase64Url` (auth.go lines 40-42). -/
def escapeBase64Url (input : String) : String :=
  replAll (replAll input '+' '-') '/' '_'

/-- Embedding of `generateAuthValues` (auth.go lines 13-34). The impure
`time.Now().Unix()` call is modelled by the explicit `timeStamp`
parameter; a key-decoding failure is modelled as `none`. -/
def generateAuthValues (clientID clientKey userID requestID : String)
    (timeStamp : Int) : Option (String × String × Int) :=
  match base64StdDecode (unescapeBase64Url clientKey) with
  | none => none
  | some decodedClientKey =>
    let signature := escapeBase64Url (base64StdEncode (hmacSha256
      decodedClientKey
      (utf8Encode (userID ++ ";" ++ requestID ++ intToDecString timeStamp))))
    some (clientID ++ ";" ++ intToDecString timeStamp ++ ";" ++ signature,
      userID ++ ";" ++ requestID, timeStamp)

/-- Client-auth component of a signing outcome. -/
def clientAuthOf (r : Option (String × String × Int)) : Option String :=
  r.map (fun p => p.1)

/-- Request-auth component of a signing outcome. -/
def requestAuthOf (r : Option (String × String × Int)) : Option String :=
  r.map (fun p => p.2.1)

/-- Modelled from the spec: the signature is the standard base64 encoding
— with '+' replaced by '-' and '/' by '_' — of the HMAC-SHA256 digest,
keyed by the decoded secret, of the UTF-8 bytes of
"userID;requestID<timestamp>" with no separator between the request id
and the decimal timestamp. -/
def specSignature (decodedKey : List Nat) (userID requestID : String)
    (ts : Int) : String :=
  escapeBase64Url (base64StdEncode (hmacSha256 decodedKey
    (utf8Encode (userID ++ ";" ++ requestID ++ intToDecString ts))))

/-- Modelled from the spec: client-auth token
"clientID;timestamp;signature". -/
def specClientAuthToken (clientID : String) (ts : Int)
    (signature : String) : String :=
  clientID ++ ";" ++ intToDecString ts ++ ";" ++ signature

/-- Modelled from the spec: request-auth token "userID;requestID". -/
def specRequestAuthToken (userID requestID : String) : String :=
  userID ++ ";" ++ requestID

/-- Claim C1. Whenever the client secret decodes as URL-safe base64, the
auth-value generator returns exactly the tokens prescribed by the spec:
the client-auth token "clientID;timestamp;signature" with the signature
computed by HMAC-SHA256 over "userID;requestID<timestamp>" under the
decoded secret, and the request-auth token "userID;requestID". -/
theorem generateAuthValues_matches_spec (clientID clientKey userID
    requestID : String) (ts : Int) (decodedKey : List Nat)
    (hdec : base64StdDecode (unescapeBase64Url clientKey) = some decodedKey) :
    generateAuthValues clientID clientKey userID requestID ts =
      some (specClientAuthToken clientID ts
              (specSignature decodedKey userID requestID ts),
            specRequestAuthToken userID requestID, ts) := by
  unfold generateAuthValues
  rw [hdec]
  rfl

/-- Witness for claim C1 with the empty (validly decoding) secret. -/
theorem generateAuthValues_matches_spec_witness :
    base64StdDecode (unescapeBase64Url ("")) = some [] ∧
    generateAuthValues ("c") ("") ("u") ("r") 3 =
      some (specClientAuthToken ("c") 3 (specSignature [] ("u") ("r") 3),
            specRequestAuthToken ("u") ("r"), 3) :=
  ⟨rfl, generateAuthValues_matches_spec ("c") ("") ("u") ("r") 3 [] rfl⟩

theorem string_data_inj {a b : String} (h : a.data = b.data) : a = b :=
  congrArg String.mk h

theorem string_append_data (a b : String) :
    (a ++ b).data = a.data ++ b.data := rfl

theorem semi_data : (";").data = [';'] := rfl

theorem generateAuthValues_decode_failure (cid key uid rid : String)
    (ts : Int) (h : base64StdDecode (unescapeBase64Url key) = none) :
    generateAuthValues cid key uid rid ts = none := by
  unfold generateAuthValues
  rw [h]

/-- Claim C8, counterexample. The claim says a changed timestamp always
changes both tokens; the request-auth token is "userID;requestID" and does
not mention the timestamp, so at timestamps 0 and 1 it is the same string
"u;r". The empty secret decodes successfully, so both runs produce
tokens. -/
theorem requestAuth_ignores_timestamp_counterexample :
    requestAuthOf (generateAuthValues ("c") ("") ("u") ("r") 0)
        = some ("u;r") ∧
    requestAuthOf (generateAuthValues ("c") ("") ("u") ("r") 1)
        = some ("u;r") := ⟨rfl, rfl⟩

/-- Claim C8, amended. Signing is deterministic in its inputs. Whenever
the secret decodes: a different request id always changes the request-auth
token, and also changes the client-auth token in every case except an
HMAC-SHA256 signature collision — the last conjunct proves that equal
client-auth tokens for two different request ids force the same signature
for two provably distinct signing messages, a collision of the digest
pipeline (no such collision is known; collision resistance is a
cryptographic assumption, not a structural property of this code). A
different timestamp always changes the client-auth token and never
changes the request-auth token, which does not depend on the timestamp. -/
theorem generateAuthValues_deterministic_and_sensitive :
    (∀ (cid key uid rid : String) (ts : Int),
      generateAuthValues cid key uid rid ts
        = generateAuthValues cid key uid rid ts) ∧
    (∀ (cid key uid rid rid' : String) (ts : Int), rid ≠ rid' →
      (generateAuthValues cid key uid rid ts).isSome = true →
      requestAuthOf (generateAuthValues cid key uid rid ts)
        ≠ requestAuthOf (generateAuthValues cid key uid rid' ts)) ∧
    (∀ (cid key uid rid : String) (ts ts' : Int), ts ≠ ts' →
      (generateAuthValues cid key uid rid ts).isSome = true →
      clientAuthOf (generateAuthValues cid key uid rid ts)
          ≠ clientAuthOf (generateAuthValues cid key uid rid ts') ∧
      requestAuthOf (generateAuthValues cid key uid rid ts)
          = requestAuthOf (generateAuthValues cid key uid rid ts')) ∧
    (∀ (cid key uid rid rid' : String) (ts : Int) (k : List Nat),
      rid ≠ rid' →
      base64StdDecode (unescapeBase64Url key) = some k →
      clientAuthOf (generateAuthValues cid key uid rid ts)
          = clientAuthOf (generateAuthValues cid key uid rid' ts) →
      specSignature k uid rid ts = specSignature k uid rid' ts ∧
      (uid ++ ";" ++ rid ++ intToDecString ts)
          ≠ (uid ++ ";" ++ rid' ++ intToDecString ts)) := by
  refine ⟨fun _ _ _ _ _ => rfl, ?_, ?_, ?_⟩
  · intro cid key uid rid rid' ts hne hsome
    rcases hdec : base64StdDecode (unescapeBase64Url key) with _ | k
    · rw [generateAuthValues_decode_failure cid key uid rid ts hdec] at hsome
      exact absurd hsome (by decide)
    · rw [generateAuthValues_matches_spec cid key uid rid ts k hdec,
        generateAuthValues_matches_spec cid key uid rid' ts k hdec]
      intro h
      have h2 : specRequestAuthToken uid rid = specRequestAuthToken uid rid' :=
        Option.some.inj h
      have hd : (uid.data ++ (";").data) ++ rid.data
          = (uid.data ++ (";").data) ++ rid'.data := congrArg String.data h2
      exact hne (string_data_inj (List.append_cancel_left hd))
  · intro cid key uid rid ts ts' hne hsome
    rcases hdec : base64StdDecode (unescapeBase64Url key) with _ | k
    · rw [generateAuthValues_decode_failure cid key uid rid ts hdec] at hsome
      exact absurd hsome (by decide)
    · rw [generateAuthValues_matches_spec cid key uid rid ts k hdec,
        generateAuthValues_matches_spec cid key uid rid ts' k hdec]
      constructor
      · intro h
        have h2 : specClientAuthToken cid ts (specSignature k uid rid ts)
            = specClientAuthToken cid ts' (specSignature k uid rid ts') :=
          Option.some.inj h
        have hd := congrArg String.data h2
        simp only [specClientAuthToken, string_append_data, semi_data,
          List.append_assoc, List.singleton_append] at hd
        have h1 := List.append_cancel_left hd
        injection h1 with hhead htail
        have h3 := sep_split ';' _ _ _ _
          (intToDecString_no_semi ts) (intToDecString_no_semi ts') htail
        exact hne (intToDecString_injective (string_data_inj h3.1))
      · show some (specRequestAuthToken uid rid)
            = some (specRequestAuthToken uid rid)
        rfl
  · intro cid key uid rid rid' ts k hne hdec hca
    rw [generateAuthValues_matches_spec cid key uid rid ts k hdec,
      generateAuthValues_matches_spec cid key uid rid' ts k hdec] at hca
    have h2 : specClientAuthToken cid ts (specSignature k uid rid ts)
        = specClientAuthToken cid ts (specSignature k uid rid' ts) :=
      Option.some.inj hca
    constructor
    · have hd := congrArg String.data h2
      simp only [specClientAuthToken, string_append_data, semi_data,
        List.append_assoc, List.singleton_append] at hd
      have h1 := List.append_cancel_left hd
      injection h1 with hhead htail
      have h4 := List.append_cancel_left htail
      injection h4 with hh h5
      exact string_data_inj h5
    · intro hmsg
      have hd := congrArg String.data hmsg
      simp only [string_append_data, semi_data, List.append_assoc,
        List.singleton_append] at hd
      have h1 := List.append_cancel_left hd
      injection h1 with hh h2m
      exact hne (string_data_inj (List.append_cancel_right h2m))

/-- Witness for claim C8 at concrete inputs: with the empty (validly
decoding) secret, determinism at fixed inputs, request-auth sensitivity to
the request id, client-auth sensitivity to the timestamp, and request-auth
invariance under the timestamp change from 0 to 1. The collision-or-change
conjunct is applied through the others at the same inputs; its
client-auth-equality antecedent names no known concrete instance, being
exactly an HMAC-SHA256 collision. -/
theorem generateAuthValues_deterministic_and_sensitive_witness :
    generateAuthValues ("c") ("") ("u") ("r") 0
        = generateAuthValues ("c") ("") ("u") ("r") 0 ∧
    requestAuthOf (generateAuthValues ("c") ("") ("u") ("r") 0)
        ≠ requestAuthOf (generateAuthValues ("c") ("") ("u") ("r2") 0) ∧
    (clientAuthOf (generateAuthValues ("c") ("") ("u") ("r") 0)
        ≠ clientAuthOf (generateAuthValues ("c") ("") ("u") ("r") 1) ∧
     requestAuthOf (generateAuthValues ("c") ("") ("u") ("r") 0)
        = requestAuthOf (generateAuthValues ("c") ("") ("u") ("r") 1)) :=
  ⟨generateAuthValues_deterministic_and_sensitive.1 ("c") ("") ("u") ("r") 0,
   generateAuthValues_deterministic_and_sensitive.2.1 ("c") ("") ("u") ("r")
     ("r2") 0 (by decide) rfl,
   generateAuthValues_deterministic_and_sensitive.2.2.1 ("c") ("") ("u")
     ("r") 0 1 (by decide) rfl⟩

/-! ## The VoiceSearch streaming decode loop

Embedding of the response-parsing loop of `VoiceSearch` (houndify.go lines
366-422). The loop repeatedly calls `bufio.Reader.ReadBytes('\n')` on the
response body: each call returns the next newline-terminated chunk, and
the final call returns the text after the last newline together with
`io.EOF`. Accordingly the raw byte stream is decomposed by `splitNL` into
its complete (newline-terminated) lines and the trailing remainder, and
the loop is the structural recursion `voiceSearchLines` over that
decomposition; `trimChars (l ++ ['\n']) = trimChars l` (proved above)
makes dropping the newline from each chunk sound. `json.Unmarshal` into
`houndServerPartialTranscript` is Go standard library and is modelled as
an explicit `parse` function parameter applied to the trimmed line. -/

/-- Embedding of the wire-level struct `houndServerPartialTranscript`
(houndify.go lines 210-220) with its embedded `houndServerMessage`
flattened into it. -/
structure houndServerPartialTranscript where
  Format : String
  FormatVersion : String
  PartialTranscript : String
  DurationMS : Int
  Done : Bool
  SafeToStopAudio : Option Bool
deriving DecidableEq

/-- Embedding of the SDK-level `PartialTranscript` struct delivered on the
caller's channel; `Duration` is `time.Duration`, i.e. nanoseconds as a
64-bit integer. -/
structure PartialTranscript where
  Message : String
  Duration : Int
  Done : Bool
  SafeToStopAudio : Option Bool
deriving DecidableEq

/-- Conversion performed at houndify.go lines 406-411. -/
def mkPartialTranscript (incoming : houndServerPartialTranscript)
    (d : Int) : PartialTranscript :=
  { Message := incoming.PartialTranscript, Duration := d,
    Done := incoming.Done, SafeToStopAudio := incoming.SafeToStopAudio }

/-- Model of Go `strconv.Atoi` on a 64-bit platform: an optional sign
followed by at least one decimal digit, value within the int64 range;
anything else (including range overflow) is an error, modelled as
`none`. -/
def goAtoi (s : String) : Option Int :=
  match s.data with
  | [] => none
  | c :: cs =>
    let neg : Bool := c = '-'
    let digits := if c = '-' || c = '+' then cs else c :: cs
    if digits = [] then none
    else if digits.all Char.isDigit then
      let v := decValChars digits
      if neg then
        (if v ≤ 9223372036854775808 then some (-(v : Int)) else none)
      else
        (if v ≤ 9223372036854775807 then some (v : Int) else none)
    else none

/-- Model of `time.ParseDuration(fmt.Sprintf("%d", ms) + "ms")` as called
at houndify.go line 399: parsing succeeds exactly when the millisecond
value scaled to nanoseconds fits in an int64 — Go rejects a magnitude
above (2^63-1)/10^6 as overflow — and the resulting duration is the
nanosecond count. -/
def parseDurationMS (ms : Int) : Option Int :=
  if ms.natAbs ≤ 9223372036854 then some (ms * 1000000) else none

/-- The two accepted partial-transcript discriminators (houndify.go line
397); the second spelling preserves a historical typo. -/
def isPartialTranscriptFormat (f : String) : Bool :=
  f == "HoundVoiceQueryPartialTranscript"
    || f == "SoundHoundVoiceSearchParialTranscript"

/-- Decompose a byte stream into its newline-terminated lines (newline
removed) and the trailing text after the last newline — the successive
results of `bufio.Reader.ReadBytes('\n')`, the last paired with
`io.EOF`. -/
def splitNL : List Char → List (List Char) × List Char
  | [] => ([], [])
  | c :: cs =>
    if c = '\n' then ([] :: (splitNL cs).1, (splitNL cs).2)
    else
      match splitNL cs with
      | ([], rem) => ([], c :: rem)
      | (l :: ls, rem) => ((c :: l) :: ls, rem)

/-- The decode loop of `VoiceSearch` over the stream's lines: returns the
dispatched partial transcripts in read order and the value the Go `line`
variable holds when the loop exits — the terminal body. A read that
returns `io.EOF` (the empty line list) exits the loop with the trimmed
remainder as the body, before any classification. Classification of a
complete line follows houndify.go lines 384-419: skip blank lines, skip
integer (byte-count-prefix) lines, skip lines that fail to parse, dispatch
well-formed partial-transcript lines (skipping those whose duration fails
to parse), and stop at a terminal-result line, whose trimmed text becomes
the body. -/
def voiceSearchLines (parse : String → Option houndServerPartialTranscript) :
    List (List Char) → List Char → List PartialTranscript × String
  | [], remainder => ([], ⟨trimChars remainder⟩)
  | l :: rest, remainder =>
    let line : String := ⟨trimChars l⟩
    if line = "" then voiceSearchLines parse rest remainder
    else if (goAtoi line).isSome then voiceSearchLines parse rest remainder
    else
      match parse line with
      | none => voiceSearchLines parse rest remainder
      | some incoming =>
        if isPartialTranscriptFormat incoming.Format then
          match parseDurationMS incoming.DurationMS with
          | none => voiceSearchLines parse rest remainder
          | some d =>
            let r := voiceSearchLines parse rest remainder
            (mkPartialTranscript incoming d :: r.1, r.2)
        else if incoming.Format = "SoundHoundVoiceSearchResult" then
          ([], line)
        else voiceSearchLines parse rest remainder

/-- The whole decode pass of `VoiceSearch` over a raw response stream. -/
def voiceSearchDecode (parse : String → Option houndServerPartialTranscript)
    (s : List Char) : List PartialTranscript × String :=
  voiceSearchLines parse (splitNL s).1 (splitNL s).2

/-- The partials dispatched to the channel, in the order their lines were
read. -/
def dispatchedPartials (parse : String → Option houndServerPartialTranscript)
    (s : List Char) : List PartialTranscript :=
  (voiceSearchDecode parse s).1

/-- The terminal body `VoiceSearch` extracts from the stream. -/
def terminalBody (parse : String → Option houndServerPartialTranscript)
    (s : List Char) : String :=
  (voiceSearchDecode parse s).2

/-- A stream consisting of the given lines, each newline-terminated. -/
def mkStream : List String → List Char
  | [] => []
  | l :: ls => l.data ++ '\n' :: mkStream ls

theorem splitNL_no_newline (s : List Char) (h : '\n' ∉ s) :
    splitNL s = ([], s) := by
  induction s with
  | nil => rfl
  | cons c cs ih =>
    have hc : ¬ (c = '\n') := fun he => h (he ▸ List.mem_cons_self c cs)
    have hcs := ih (fun hm => h (List.mem_cons_of_mem c hm))
    show splitNL (c :: cs) = ([], c :: cs)
    simp only [splitNL]
    rw [if_neg hc, hcs]

theorem splitNL_cons (l : List Char) (rest : List Char) (h : '\n' ∉ l) :
    splitNL (l ++ '\n' :: rest)
      = (l :: (splitNL rest).1, (splitNL rest).2) := by
  induction l with
  | nil =>
    show splitNL ('\n' :: rest) = _
    simp only [splitNL, if_true]
  | cons c cs ih =>
    have hc : ¬ (c = '\n') := fun he => h (he ▸ List.mem_cons_self c cs)
    have hcs := ih (fun hm => h (List.mem_cons_of_mem c hm))
    show splitNL (c :: (cs ++ '\n' :: rest)) = _
    simp only [splitNL]
    rw [if_neg hc, hcs]

theorem splitNL_mkStream (ls : List String)
    (h : ∀ l ∈ ls, '\n' ∉ l.data) :
    splitNL (mkStream ls) = (ls.map String.data, []) := by
  induction ls with
  | nil => rfl
  | cons l rest ih =>
    show splitNL (l.data ++ '\n' :: mkStream rest) = _
    rw [splitNL_cons l.data (mkStream rest) (h l (List.mem_cons_self _ _)),
      ih (fun x hx => h x (List.mem_cons_of_mem _ hx))]
    rfl

/-- A line the loop dispatches as a partial transcript: non-blank after
trimming, not an integer frame marker, parsed by `json.Unmarshal` into
`incoming` with a recognized partial-transcript discriminator, and with a
millisecond duration that converts to `d` nanoseconds. -/
def IsPartialLine (parse : String → Option houndServerPartialTranscript)
    (l : String) (incoming : houndServerPartialTranscript) (d : Int) : Prop :=
  '\n' ∉ l.data ∧
  (⟨trimChars l.data⟩ : String) ≠ "" ∧
  (goAtoi ⟨trimChars l.data⟩).isSome = false ∧
  parse ⟨trimChars l.data⟩ = some incoming ∧
  isPartialTranscriptFormat incoming.Format = true ∧
  parseDurationMS incoming.DurationMS = some d

/-- A line carrying the terminal-result discriminator, at which the loop
stops. -/
def IsTerminalLine (parse : String → Option houndServerPartialTranscript)
    (l : String) : Prop :=
  '\n' ∉ l.data ∧
  (⟨trimChars l.data⟩ : String) ≠ "" ∧
  (goAtoi ⟨trimChars l.data⟩).isSome = false ∧
  ∃ incoming, parse ⟨trimChars l.data⟩ = some incoming ∧
    incoming.Format = "SoundHoundVoiceSearchResult"

theorem voiceSearchLines_skip (parse : String → Option houndServerPartialTranscript)
    (l : List Char) (rest : List (List Char)) (rem : List Char)
    (h : (⟨trimChars l⟩ : String) = "" ∨ (goAtoi ⟨trimChars l⟩).isSome = true ∨
      ((⟨trimChars l⟩ : String) ≠ "" ∧ (goAtoi ⟨trimChars l⟩).isSome = false ∧
        parse ⟨trimChars l⟩ = none)) :
    voiceSearchLines parse (l :: rest) rem = voiceSearchLines parse rest rem := by
  simp only [voiceSearchLines]
  rcases h with h1 | h2 | ⟨h1, h2, h3⟩
  · rw [if_pos h1]
  · by_cases h1 : (⟨trimChars l⟩ : String) = ""
    · rw [if_pos h1]
    · rw [if_neg h1, if_pos h2]
  · rw [if_neg h1, if_neg (by rw [h2]; exact Bool.false_ne_true), h3]

theorem voiceSearchLines_dispatch (parse : String → Option houndServerPartialTranscript)
    (l : List Char) (rest : List (List Char)) (rem : List Char)
    (incoming : houndServerPartialTranscript) (d : Int)
    (h1 : (⟨trimChars l⟩ : String) ≠ "")
    (h2 : (goAtoi ⟨trimChars l⟩).isSome = false)
    (h3 : parse ⟨trimChars l⟩ = some incoming)
    (h4 : isPartialTranscriptFormat incoming.Format = true)
    (h5 : parseDurationMS incoming.DurationMS = some d) :
    voiceSearchLines parse (l :: rest) rem
      = (mkPartialTranscript incoming d ::
          (voiceSearchLines parse rest rem).1,
        (voiceSearchLines parse rest rem).2) := by
  simp only [voiceSearchLines]
  rw [if_neg h1, if_neg (by rw [h2]; exact Bool.false_ne_true)]
  simp only [h3]
  rw [if_pos h4, h5]

theorem voiceSearchLines_terminal (parse : String → Option houndServerPartialTranscript)
    (l : List Char) (rest : List (List Char)) (rem : List Char)
    (incoming : houndServerPartialTranscript)
    (h1 : (⟨trimChars l⟩ : String) ≠ "")
    (h2 : (goAtoi ⟨trimChars l⟩).isSome = false)
    (h3 : parse ⟨trimChars l⟩ = some incoming)
    (h4 : incoming.Format = "SoundHoundVoiceSearchResult") :
    voiceSearchLines parse (l :: rest) rem = ([], ⟨trimChars l⟩) := by
  simp only [voiceSearchLines]
  rw [if_neg h1, if_neg (by rw [h2]; exact Bool.false_ne_true)]
  simp only [h3]
  rw [h4, if_neg (by decide), if_pos rfl]

/-! ## Channel-delivery trace model

Each dispatched partial is sent on the caller's channel by its own
goroutine (houndify.go lines 404-413): `partialChanWait.Add(1)` precedes
the spawn and `partialChanWait.Done()` follows the send, and the deferred
closer (lines 325-331) runs `partialChanWait.Wait()` before
`close(partialTranscriptChan)`. Go gives no ordering between distinct
goroutines' channel sends, so a completed run delivers the dispatched
partials in some arbitrary permutation, followed — strictly after every
send has completed, because `Wait` returns only after every `Done` — by
the single close event. -/

/-- An observable event on the caller-supplied channel. -/
inductive ChanEvent where
  | send : PartialTranscript → ChanEvent
  | close : ChanEvent
deriving DecidableEq

/-- The partials carried by the send events of a trace, in trace order. -/
def sentPartials : List ChanEvent → List PartialTranscript
  | [] => []
  | ChanEvent.send p :: rest => p :: sentPartials rest
  | ChanEvent.close :: rest => sentPartials rest

/-- The set of channel traces a completed `VoiceSearch` run can produce
for a given dispatched-partial list: any permutation of the sends,
followed by the close. -/
def possibleTraces (dispatched : List PartialTranscript)
    (tr : List ChanEvent) : Prop :=
  ∃ ds, List.Perm ds dispatched ∧
    tr = ds.map ChanEvent.send ++ [ChanEvent.close]

theorem sentPartials_sends (ds : List PartialTranscript) :
    sentPartials (ds.map ChanEvent.send ++ [ChanEvent.close]) = ds := by
  induction ds with
  | nil => rfl
  | cons p ps ih =>
    show p :: sentPartials (ps.map ChanEvent.send ++ [ChanEvent.close])
      = p :: ps
    rw [ih]

theorem getLast_concat_close (xs : List ChanEvent) :
    (xs ++ [ChanEvent.close]).getLast? = some ChanEvent.close :=
  List.getLast?_concat _

/-- Processing a block of well-formed partial-transcript lines dispatches
exactly those partials, in order, and continues with the rest of the
stream. -/
theorem voiceSearchLines_partial_block
    (parse : String → Option houndServerPartialTranscript)
    (pls : List (String × houndServerPartialTranscript × Int))
    (rest : List (List Char)) (rem : List Char)
    (hp : ∀ t ∈ pls, IsPartialLine parse t.1 t.2.1 t.2.2) :
    voiceSearchLines parse (pls.map (fun t => t.1.data) ++ rest) rem
      = ((pls.map fun t => mkPartialTranscript t.2.1 t.2.2)
            ++ (voiceSearchLines parse rest rem).1,
         (voiceSearchLines parse rest rem).2) := by
  induction pls with
  | nil => simp
  | cons t tl ih =>
    obtain ⟨ha, hb, hc, hd, he, hf⟩ := hp t (List.mem_cons_self _ _)
    simp only [List.map_cons, List.cons_append]
    rw [voiceSearchLines_dispatch parse t.1.data
      (tl.map (fun t => t.1.data) ++ rest) rem t.2.1 t.2.2 hb hc hd he hf]
    rw [ih (fun x hx => hp x (List.mem_cons_of_mem _ hx))]

/-- Claim C2, amended. For a stream of N well-formed partial-transcript
lines followed by a terminal-result line, the loop dispatches exactly the
N partials, in read order; every completed channel trace then consists of
exactly those N deliveries — none dropped, none invented, though possibly
permuted relative to read order — followed by the channel close, and no
event follows the close. -/
theorem voiceSearch_dispatch_and_close
    (parse : String → Option houndServerPartialTranscript)
    (pls : List (String × houndServerPartialTranscript × Int)) (term : String)
    (hp : ∀ t ∈ pls, IsPartialLine parse t.1 t.2.1 t.2.2)
    (ht : IsTerminalLine parse term) :
    dispatchedPartials parse (mkStream (pls.map (fun t => t.1) ++ [term]))
        = pls.map (fun t => mkPartialTranscript t.2.1 t.2.2) ∧
    ∀ tr, possibleTraces
        (dispatchedPartials parse (mkStream (pls.map (fun t => t.1) ++ [term])))
        tr →
      (sentPartials tr).length = pls.length ∧
      List.Perm (sentPartials tr)
        (pls.map (fun t => mkPartialTranscript t.2.1 t.2.2)) ∧
      tr.getLast? = some ChanEvent.close ∧
      ∀ e ∈ tr.dropLast, e ≠ ChanEvent.close := by
  have hnn : ∀ l ∈ (pls.map (fun t => t.1) ++ [term]), '\n' ∉ l.data := by
    intro l hl
    rcases List.mem_append.mp hl with hm | hm
    · obtain ⟨t, htm, rfl⟩ := List.mem_map.mp hm
      exact (hp t htm).1
    · rw [List.mem_singleton.mp hm]
      exact ht.1
  have hcast : List.map String.data (pls.map (fun t => t.1))
      = pls.map (fun t => t.1.data) := by
    rw [List.map_map]
    rfl
  have hmain : dispatchedPartials parse
      (mkStream (pls.map (fun t => t.1) ++ [term]))
      = pls.map (fun t => mkPartialTranscript t.2.1 t.2.2) := by
    unfold dispatchedPartials voiceSearchDecode
    rw [splitNL_mkStream _ hnn]
    obtain ⟨hta, htb, htc, incoming, htd, hte⟩ := ht
    show (voiceSearchLines parse
      (List.map String.data (pls.map (fun t => t.1) ++ [term])) []).1 = _
    rw [List.map_append, hcast]
    simp only [List.map_cons, List.map_nil]
    rw [voiceSearchLines_partial_block parse pls [term.data] [] hp]
    rw [voiceSearchLines_terminal parse term.data [] [] incoming
      htb htc htd hte]
    simp
  refine ⟨hmain, ?_⟩
  rintro tr ⟨ds, hperm, rfl⟩
  rw [hmain] at hperm
  rw [sentPartials_sends]
  refine ⟨by rw [hperm.length_eq, List.length_map], hperm,
    getLast_concat_close _, ?_⟩
  intro e he
  rw [List.dropLast_concat] at he
  obtain ⟨p, _, rfl⟩ := List.mem_map.mp he
  intro hcon
  exact ChanEvent.noConfusion hcon

/-! ## Concrete sample server lines

A fixed set of wire lines with the parse results `json.Unmarshal` gives
them (absent JSON fields are filled with Go zero values), used to
instantiate the quantified decoder theorems. -/

/-- Parse result of `lineP1`. -/
def incP1 : houndServerPartialTranscript :=
  { Format := ("SoundHoundVoiceSearchParialTranscript"),
    FormatVersion := ("1"), PartialTranscript := ("what time"),
    DurationMS := 500, Done := false, SafeToStopAudio := none }

/-- Parse result of `lineP2`. -/
def incP2 : houndServerPartialTranscript :=
  { Format := ("SoundHoundVoiceSearchParialTranscript"),
    FormatVersion := ("1"), PartialTranscript := ("what time is it"),
    DurationMS := 1000, Done := true, SafeToStopAudio := some true }

/-- Parse result of `lineT`. -/
def incT : houndServerPartialTranscript :=
  { Format := ("SoundHoundVoiceSearchResult"), FormatVersion := ("1"),
    PartialTranscript := (""), DurationMS := 0, Done := false,
    SafeToStopAudio := none }

/-- A first partial-transcript line as the server sends it. -/
def lineP1 : String :=
  "\x7b\"Format\":\"SoundHoundVoiceSearchParialTranscript\",\"PartialTranscript\":\"what time\",\"DurationMS\":500,\"Done\":false\x7d"

/-- A second partial-transcript line. -/
def lineP2 : String :=
  "\x7b\"Format\":\"SoundHoundVoiceSearchParialTranscript\",\"PartialTranscript\":\"what time is it\",\"DurationMS\":1000,\"Done\":true,\"SafeToStopAudio\":true\x7d"

/-- A terminal-result line. -/
def lineT : String :=
  "\x7b\"Format\":\"SoundHoundVoiceSearchResult\",\"Status\":\"OK\",\"NumToReturn\":1\x7d"

/-- A malformed auxiliary line that fails JSON parsing. -/
def lineBad : String := "oops not json"

/-- Stand-in for `json.Unmarshal` on the sample lines: each known line
maps to its parse result, everything else fails to parse. -/
def sampleParse : String → Option houndServerPartialTranscript := fun s =>
  if s = lineP1 then some incP1
  else if s = lineP2 then some incP2
  else if s = lineT then some incT
  else none

/-- The `PartialTranscript` values the two sample partial lines dispatch
(500 ms and 1000 ms converted to nanoseconds). -/
def partial1 : PartialTranscript := mkPartialTranscript incP1 500000000

/-- Second dispatched sample value. -/
def partial2 : PartialTranscript := mkPartialTranscript incP2 1000000000

instance (parse : String → Option houndServerPartialTranscript) (l : String)
    (incoming : houndServerPartialTranscript) (d : Int) :
    Decidable (IsPartialLine parse l incoming d) := by
  unfold IsPartialLine
  infer_instance

set_option maxRecDepth 40000 in
/-- Claim C2, counterexample to the ordering guarantee. On the concrete
two-partial stream the loop dispatches `[partial1, partial2]` in read
order, but — because every send runs in its own goroutine with no
ordering between goroutines — the reversed trace (partial2 first, then
partial1, then close) is a possible completed run, and that delivery
order differs from the read order. The claim's "in the order the lines
were read from the stream" therefore fails. -/
theorem voiceSearch_delivery_order_counterexample :
    dispatchedPartials sampleParse (mkStream [lineP1, lineP2, lineT])
        = [partial1, partial2] ∧
    partial1 ≠ partial2 ∧
    possibleTraces (dispatchedPartials sampleParse
        (mkStream [lineP1, lineP2, lineT]))
      [ChanEvent.send partial2, ChanEvent.send partial1, ChanEvent.close] ∧
    [partial2, partial1] ≠ [partial1, partial2] := by
  have hd : dispatchedPartials sampleParse (mkStream [lineP1, lineP2, lineT])
      = [partial1, partial2] := by decide
  refine ⟨hd, by decide, ⟨[partial2, partial1], ?_, rfl⟩, by decide⟩
  rw [hd]
  exact List.Perm.swap partial1 partial2 []

set_option maxRecDepth 40000 in
/-- Witness for claim C2 at the concrete two-partial sample stream and
the in-order trace. -/
theorem voiceSearch_dispatch_and_close_witness :
    dispatchedPartials sampleParse (mkStream [lineP1, lineP2, lineT])
        = [partial1, partial2] ∧
    (sentPartials [ChanEvent.send partial1, ChanEvent.send partial2,
        ChanEvent.close]).length = 2 ∧
    List.Perm (sentPartials [ChanEvent.send partial1, ChanEvent.send partial2,
        ChanEvent.close]) [partial1, partial2] ∧
    ([ChanEvent.send partial1, ChanEvent.send partial2,
        ChanEvent.close].getLast? = some ChanEvent.close) ∧
    ∀ e ∈ [ChanEvent.send partial1, ChanEvent.send partial2,
        ChanEvent.close].dropLast, e ≠ ChanEvent.close := by
  have h := voiceSearch_dispatch_and_close sampleParse
    [(lineP1, incP1, 500000000), (lineP2, incP2, 1000000000)] lineT
    (by decide)
    ⟨by decide, by decide, by decide, incT, by decide, rfl⟩
  obtain ⟨h1, h2⟩ := h
  have h3 := h2 [ChanEvent.send partial1, ChanEvent.send partial2,
      ChanEvent.close]
    ⟨[partial1, partial2], by rw [h1]; exact List.Perm.refl _, rfl⟩
  exact ⟨h1, h3.1, h3.2.1, h3.2.2.1, h3.2.2.2⟩

/-- Boolean test for a line at which the loop stops reading: non-blank,
non-integer, parsed, and carrying the terminal-result discriminator
(having failed the partial-transcript test checked first). -/
def lineBreaksB (parse : String → Option houndServerPartialTranscript)
    (l : List Char) : Bool :=
  !((⟨trimChars l⟩ : String) == "") &&
  !(goAtoi ⟨trimChars l⟩).isSome &&
  (match parse ⟨trimChars l⟩ with
   | none => false
   | some incoming =>
     !(isPartialTranscriptFormat incoming.Format)
       && (incoming.Format == "SoundHoundVoiceSearchResult"))

theorem voiceSearchLines_eof_body
    (parse : String → Option houndServerPartialTranscript)
    (lines : List (List Char)) (rem : List Char)
    (h : ∀ l ∈ lines, lineBreaksB parse l = false) :
    (voiceSearchLines parse lines rem).2 = ⟨trimChars rem⟩ := by
  induction lines with
  | nil => rfl
  | cons l rest ih =>
    have hrest := ih (fun x hx => h x (List.mem_cons_of_mem _ hx))
    have hl := h l (List.mem_cons_self _ _)
    simp only [voiceSearchLines]
    by_cases h1 : (⟨trimChars l⟩ : String) = ""
    · rw [if_pos h1]
      exact hrest
    · rw [if_neg h1]
      by_cases h2 : (goAtoi (⟨trimChars l⟩ : String)).isSome = true
      · rw [if_pos h2]
        exact hrest
      · rw [if_neg h2]
        have h2f : (goAtoi (⟨trimChars l⟩ : String)).isSome = false := by
          revert h2
          cases (goAtoi (⟨trimChars l⟩ : String)).isSome <;> simp
        rcases hp : parse (⟨trimChars l⟩ : String) with _ | incoming
        · simp only [hp]
          exact hrest
        · simp only [hp]
          by_cases h4 : isPartialTranscriptFormat incoming.Format = true
          · rw [if_pos h4]
            rcases hdur : parseDurationMS incoming.DurationMS with _ | d
            · simp only [hdur]
              exact hrest
            · simp only [hdur]
              exact hrest
          · rw [if_neg h4]
            by_cases h5 : incoming.Format = "SoundHoundVoiceSearchResult"
            · exfalso
              have hbrk : lineBreaksB parse l = true := by
                have h4f : isPartialTranscriptFormat incoming.Format = false := by
                  revert h4
                  cases isPartialTranscriptFormat incoming.Format <;> simp
                simp [lineBreaksB, hp, h5, h1, h2f, h4f]
                decide
              rw [hl] at hbrk
              exact Bool.noConfusion hbrk
            · rw [if_neg h5]
              exact hrest

/-- Claim C3, amended. When no line of the stream carries the
terminal-result discriminator, the loop runs to end-of-input and the
returned terminal body is the trimmed content of the final
`ReadBytes('\n')` read — the text after the last newline of the stream.
In particular it is the empty string, not the last non-blank line,
whenever the stream ends with a newline; it coincides with the last line
only when the server omits the final newline. -/
theorem voiceSearch_eof_body_is_trailing_segment
    (parse : String → Option houndServerPartialTranscript) (s : List Char)
    (h : ∀ l ∈ (splitNL s).1, lineBreaksB parse l = false) :
    terminalBody parse s = ⟨trimChars (splitNL s).2⟩ :=
  voiceSearchLines_eof_body parse (splitNL s).1 (splitNL s).2 h

/-- Claim C3, counterexample. The stream "hello\n" ends without a
terminal-result line; its last successfully read non-blank line is
"hello", but `VoiceSearch` returns the empty string as the terminal body,
because the `line` variable is overwritten by the final, empty
end-of-input read. -/
theorem voiceSearch_last_nonblank_counterexample :
    (splitNL (("hello\n").data)).1 = [("hello").data] ∧
    (⟨trimChars (("hello").data)⟩ : String) = ("hello") ∧
    ("hello" : String) ≠ "" ∧
    terminalBody sampleParse (("hello\n").data) = "" ∧
    ("" : String) ≠ ("hello") := by
  exact ⟨by decide, by decide, by decide, by decide, by decide⟩

/-- Witness for claim C3 on the stream "hello\nworld": the body is the
trailing segment "world". -/
theorem voiceSearch_eof_body_is_trailing_segment_witness :
    terminalBody sampleParse (("hello\nworld").data) = ("world") := by
  have h := voiceSearch_eof_body_is_trailing_segment sampleParse
    (("hello\nworld").data) (by decide)
  rw [h]
  decide

/-- Claim C4. A non-framing line that fails JSON parsing between two
well-formed partial lines is skipped without aborting: both partials are
dispatched and the terminal body is still reached; and any blank or
integer (byte-count-prefix) line is skipped without producing any
delivery. -/
theorem voiceSearch_skips_malformed_line
    (parse : String → Option houndServerPartialTranscript)
    (p1 bad p2 term : String)
    (inc1 inc2 : houndServerPartialTranscript) (d1 d2 : Int)
    (h1 : IsPartialLine parse p1 inc1 d1)
    (hb1 : '\n' ∉ bad.data)
    (hb2 : (⟨trimChars bad.data⟩ : String) ≠ "")
    (hb3 : (goAtoi ⟨trimChars bad.data⟩).isSome = false)
    (hb4 : parse ⟨trimChars bad.data⟩ = none)
    (h2 : IsPartialLine parse p2 inc2 d2)
    (ht : IsTerminalLine parse term) :
    voiceSearchDecode parse (mkStream [p1, bad, p2, term])
        = ([mkPartialTranscript inc1 d1, mkPartialTranscript inc2 d2],
           ⟨trimChars term.data⟩) ∧
    (∀ (l : List Char) (lines : List (List Char)) (rem : List Char),
      (⟨trimChars l⟩ : String) = "" ∨ (goAtoi ⟨trimChars l⟩).isSome = true →
      voiceSearchLines parse (l :: lines) rem
        = voiceSearchLines parse lines rem) := by
  constructor
  · unfold voiceSearchDecode
    rw [splitNL_mkStream _ (by
      intro l hl
      simp only [List.mem_cons, List.not_mem_nil, or_false] at hl
      rcases hl with rfl | rfl | rfl | rfl
      · exact h1.1
      · exact hb1
      · exact h2.1
      · exact ht.1)]
    obtain ⟨_, hc1, hd1, he1, hf1, hg1⟩ := h1
    obtain ⟨_, hc2, hd2, he2, hf2, hg2⟩ := h2
    obtain ⟨_, htb, htc, incTm, htd, hte⟩ := ht
    simp only [List.map_cons, List.map_nil]
    rw [voiceSearchLines_dispatch parse p1.data _ [] inc1 d1
      hc1 hd1 he1 hf1 hg1]
    rw [voiceSearchLines_skip parse bad.data _ []
      (Or.inr (Or.inr ⟨hb2, hb3, hb4⟩))]
    rw [voiceSearchLines_dispatch parse p2.data _ [] inc2 d2
      hc2 hd2 he2 hf2 hg2]
    rw [voiceSearchLines_terminal parse term.data [] [] incTm
      htb htc htd hte]
  · intro l lines rem hor
    refine voiceSearchLines_skip parse l lines rem ?_
    rcases hor with h | h
    · exact Or.inl h
    · exact Or.inr (Or.inl h)

set_option maxRecDepth 40000 in
/-- Witness for claim C4: the concrete stream (partial, malformed line,
partial, terminal) delivers both partials and reaches the terminal body,
and a concrete integer line is skipped without any delivery. -/
theorem voiceSearch_skips_malformed_line_witness :
    voiceSearchDecode sampleParse (mkStream [lineP1, lineBad, lineP2, lineT])
        = ([partial1, partial2], lineT) ∧
    voiceSearchLines sampleParse [(("123") : String).data] []
        = voiceSearchLines sampleParse [] [] := by
  have h := voiceSearch_skips_malformed_line sampleParse
    lineP1 lineBad lineP2 lineT incP1 incP2 500000000 1000000000
    (by decide) (by decide) (by decide) (by decide) (by decide)
    (by decide)
    ⟨by decide, by decide, by decide, incT, by decide, rfl⟩
  exact ⟨h.1, h.2 (("123") : String).data [] [] (Or.inr (by decide))⟩

end Houndify
